import Mathlib

/-!
Verification of the motion-detection capture cycle in `image_motion.py`.

The embedding models images as dimensioned pixel grids, the pure scoring
function `detect_motion_gray`, the preprocessing (crop to a region box and
conversion to 8-bit grayscale, following PIL semantics), the `Backend`
capture/display/alert cycle, and the looping `MockCamera` fixture source.
-/

namespace ImageMotion

/-- An RGB pixel: three 8-bit channel intensities. -/
abbrev RGB := Nat × Nat × Nat

/-- A color image: a width-by-height grid of RGB pixels, addressed as
`pix x y` with `x < width` and `y < height` (pixels outside the bounds are
irrelevant to every operation below). -/
structure RGBImage where
  width : Nat
  height : Nat
  pix : Nat → Nat → RGB

/-- A single-channel (grayscale) image of 8-bit intensities. -/
structure GrayImage where
  width : Nat
  height : Nat
  pix : Nat → Nat → Nat

/-- Absolute difference of two intensities, as computed per pixel by
`PIL.ImageChops.difference`. -/
def pixelDiff (a b : Nat) : Nat := max a b - min a b

/-- PIL's RGB-to-L luma transform: `L = (R*19595 + G*38470 + B*7471 + 2^15) >> 16`,
the fixed-point form of `L = 0.299 R + 0.587 G + 0.114 B` with rounding. -/
def luma (c : RGB) : Nat := (c.1 * 19595 + c.2.1 * 38470 + c.2.2 * 7471 + 32768) / 65536

/-- A crop box `(left, upper, right, lower)` as passed to `PIL.Image.crop`. -/
abbrev Box := Nat × Nat × Nat × Nat

/-- Semantics of `PIL.Image.crop`: the result has size `(right-left, lower-upper)`; pixel
`(x, y)` of the result is pixel `(left+x, upper+y)` of the source when that
lies inside the source, and black otherwise (PIL fills regions of the box
that extend beyond the image boundary with black; it never fails). -/
def crop (img : RGBImage) (box : Box) : RGBImage where
  width := box.2.2.1 - box.1
  height := box.2.2.2 - box.2.1
  pix := fun x y =>
    if box.1 + x < img.width ∧ box.2.1 + y < img.height then
      img.pix (box.1 + x) (box.2.1 + y)
    else (0, 0, 0)

/-- Grayscale conversion (`Image.convert` to mode L): apply the luma transform to every pixel. -/
def convertL (img : RGBImage) : GrayImage where
  width := img.width
  height := img.height
  pix := fun x y => luma (img.pix x y)

/-- Number of pixels of the difference image `|gray1 - gray2|` whose value
strictly exceeds `t` — the count of 1-pixels of `diff.point(lambda p: p > t)`.
Dimensions are taken from `gray1` (in every call site both arguments come
from the same crop box, hence share dimensions). -/
def diffCount (gray1 gray2 : GrayImage) (t : Nat) : Nat :=
  Finset.sum (Finset.range gray1.width) fun x =>
    Finset.sum (Finset.range gray1.height) fun y =>
      if t < pixelDiff (gray1.pix x y) (gray2.pix x y) then 1 else 0

/-- Source function `detect_motion_gray`: threshold the pixelwise absolute difference of two
grayscale images strictly at `pixel_diff_threshold`, then return the mean of
the resulting 0/1 image (`ImageStat.Stat(...).mean[0]`), i.e. the ratio of
differing pixels to all pixels. -/
def detect_motion_gray (gray1 gray2 : GrayImage) (pixel_diff_threshold : Nat) : ℚ :=
  (diffCount gray1 gray2 pixel_diff_threshold : ℚ) / ((gray1.width * gray1.height : Nat) : ℚ)

/-- The two aggregation modes the specification requires of a motion scorer. -/
inductive AggregationMode where
  | mean : AggregationMode
  | sum : AggregationMode

/-- Modelled from the spec: the spec's §4.2 `MotionScorer` exposes the
aggregation mode (mean ratio vs. raw differing-pixel count) as explicit
configuration; the repository variant implementing the sum mode is not in
the sources at hand, which contain only the mean-mode `detect_motion_gray`.
Mean mode delegates to the source function; sum mode returns the count of
differing pixels. -/
def score_with_mode (mode : AggregationMode) (gray1 gray2 : GrayImage)
    (pixel_diff_threshold : Nat) : ℚ :=
  match mode with
  | AggregationMode.mean => detect_motion_gray gray1 gray2 pixel_diff_threshold
  | AggregationMode.sum => (diffCount gray1 gray2 pixel_diff_threshold : ℚ)

/-- Events the backend emits to its `ImageDisplay` collaborator during one
`update`: `display img` for `image_display.update_image(img)` and `alert`
for `image_display.motion_alert()`. -/
inductive Event where
  | display : RGBImage → Event
  | alert : Event

/-- Outcome of `camera.capture()`: a raw frame, or a raised error. -/
inductive CaptureResult where
  | ok : RGBImage → CaptureResult
  | err : CaptureResult

/-- The mutable state of a `Backend` instance together with its read-only
configuration (`crop_box`, `pixel_threshold`, `motion_threshold`). -/
structure Backend where
  crop_box : Box
  pixel_threshold : Nat
  motion_threshold : ℚ
  old_gray_image : Option GrayImage
  new_gray_image : Option GrayImage
  new_image : Option RGBImage

/-- Constructor `Backend.__init__`: configuration stored, all three image slots `None`. -/
def Backend.init (box : Box) (pixel_threshold : Nat) (motion_threshold : ℚ) : Backend where
  crop_box := box
  pixel_threshold := pixel_threshold
  motion_threshold := motion_threshold
  old_gray_image := none
  new_gray_image := none
  new_image := none

/-- Method `Backend.__preprocess_image`: crop the raw frame to the configured box and
also convert the crop to grayscale, returning `(cropped, gray)`. -/
def Backend.preprocess_image (s : Backend) (img : RGBImage) : RGBImage × GrayImage :=
  let cropped := crop img s.crop_box
  (cropped, convertL cropped)

/-- One `Backend.update` call, with the camera's behaviour on this tick given
by `cap`. Mirrors the source statement by statement:
`__update_images` first overwrites `old_gray_image` with `new_gray_image`,
then calls `capture()`; when capture raises, the exception propagates out of
`update` with that first assignment already committed and nothing else run.
On success `__update_display` emits the cropped color frame, then
`__handle_motion` scores the two grayscale slots when both are populated and
emits an alert when the score strictly exceeds `motion_threshold`.
Returns the post-call state and the emitted events. -/
def Backend.update (s : Backend) (cap : CaptureResult) : Backend × List Event :=
  let s1 : Backend := { s with old_gray_image := s.new_gray_image }
  match cap with
  | CaptureResult.err => (s1, [])
  | CaptureResult.ok raw =>
    let pre := s1.preprocess_image raw
    let s2 : Backend := { s1 with new_image := some pre.1, new_gray_image := some pre.2 }
    let displayEvents : List Event := [Event.display pre.1]
    let motionEvents : List Event :=
      match s2.old_gray_image, s2.new_gray_image with
      | some oldg, some newg =>
        if s2.motion_threshold < detect_motion_gray oldg newg s2.pixel_threshold then
          [Event.alert]
        else []
      | _, _ => []
    (s2, displayEvents ++ motionEvents)

/-- Run a sequence of `update` calls in which every capture succeeds, with the
listed raw frames captured in order. -/
def Backend.runOk (s : Backend) (raws : List RGBImage) : Backend :=
  raws.foldl (fun st raw => (st.update (CaptureResult.ok raw)).1) s

/-- The grayscale processed frame `update` stores for a captured raw frame. -/
def Backend.processed (s : Backend) (raw : RGBImage) : GrayImage :=
  convertL (crop raw s.crop_box)

/-- The looping fixture camera (`MockCamera`): an ordered collection of
pre-loaded frames and a cursor index (the source constructor loads 60 sample
frames and starts the cursor at 15). -/
structure MockCamera where
  images : List RGBImage
  index : Nat

/-- Method `MockCamera.capture`: return the frame at the cursor (`self.images[self.index]`,
out of range modelled as `none`), then advance the cursor modulo the
collection size. -/
def MockCamera.capture (c : MockCamera) : Option RGBImage × MockCamera :=
  (c.images.get? c.index, { c with index := (c.index + 1) % c.images.length })

/-- The camera state after `n` consecutive `capture()` calls. -/
def MockCamera.runCaptures (c : MockCamera) : Nat → MockCamera
  | 0 => c
  | n + 1 => (MockCamera.runCaptures c n).capture.2

/-- The frame returned by the `(n+1)`-th `capture()` call (0-indexed `n`). -/
def MockCamera.nthCapture (c : MockCamera) (n : Nat) : Option RGBImage :=
  (c.runCaptures n).capture.1

/-- Recognizer for display-update events. -/
def Event.isDisplay : Event → Bool
  | Event.display _ => true
  | Event.alert => false

/-! Helper lemmas characterizing one `update` call. -/

theorem Backend.update_err (s : Backend) :
    s.update CaptureResult.err = ({ s with old_gray_image := s.new_gray_image }, []) := rfl

theorem Backend.update_ok_state (s : Backend) (raw : RGBImage) :
    (s.update (CaptureResult.ok raw)).1 =
      { s with old_gray_image := s.new_gray_image,
               new_image := some (crop raw s.crop_box),
               new_gray_image := some (convertL (crop raw s.crop_box)) } := by
  cases h : s.new_gray_image <;>
    simp [Backend.update, Backend.preprocess_image, h]

theorem Backend.update_ok_events_none (s : Backend) (raw : RGBImage)
    (h : s.new_gray_image = none) :
    (s.update (CaptureResult.ok raw)).2 = [Event.display (crop raw s.crop_box)] := by
  simp [Backend.update, Backend.preprocess_image, h]

theorem Backend.update_ok_events_some (s : Backend) (raw : RGBImage) (g : GrayImage)
    (h : s.new_gray_image = some g) :
    (s.update (CaptureResult.ok raw)).2 =
      Event.display (crop raw s.crop_box) ::
        (if s.motion_threshold <
            detect_motion_gray g (convertL (crop raw s.crop_box)) s.pixel_threshold then
          [Event.alert]
        else []) := by
  simp [Backend.update, Backend.preprocess_image, h]

theorem diffCount_self (g : GrayImage) (t : Nat) : diffCount g g t = 0 := by
  refine Finset.sum_eq_zero fun x _ => Finset.sum_eq_zero fun y _ => ?_
  simp [pixelDiff]

/-- C1: a freshly constructed `Backend` has no previous grayscale frame, so the
first `update` call computes no score and never emits an alert event, whatever
the capture yields (a frame of any content, or a failure). -/
theorem c1_first_update_never_alerts (box : Box) (pt : Nat) (mt : ℚ)
    (cap : CaptureResult) :
    Event.alert ∉ ((Backend.init box pt mt).update cap).2 := by
  cases cap with
  | err => simp [Backend.update_err]
  | ok raw =>
    rw [Backend.update_ok_events_none (Backend.init box pt mt) raw rfl]
    simp

/-- C8: comparing any grayscale frame with itself yields a zero score for every
pixel threshold: the per-pixel differences are all zero, none strictly exceeds
the (nonnegative) threshold, so the ratio of differing pixels is 0. -/
theorem c8_score_self_eq_zero (g : GrayImage) (t : Nat) :
    detect_motion_gray g g t = 0 := by
  unfold detect_motion_gray
  rw [diffCount_self]
  simp

/-- C10: every `update` call with a successful capture — including the very
first one, when no previous frame exists and no score is computed — emits
exactly one display-update event, and the frame it carries is the cropped
color image of the newly captured frame (the crop itself, not its grayscale
conversion). -/
theorem c10_exactly_one_display_event (s : Backend) (raw : RGBImage) :
    ((s.update (CaptureResult.ok raw)).2.filter Event.isDisplay) =
      [Event.display (crop raw s.crop_box)] := by
  cases h : s.new_gray_image with
  | none => rw [Backend.update_ok_events_none s raw h]; rfl
  | some g =>
    rw [Backend.update_ok_events_some s raw g h]
    by_cases hc : s.motion_threshold <
        detect_motion_gray g (convertL (crop raw s.crop_box)) s.pixel_threshold
    · simp [hc, List.filter, Event.isDisplay]
    · simp [hc, List.filter, Event.isDisplay]

/-! Concrete frames used to instantiate theorems with hypotheses. -/

/-- A 1-by-1 grayscale frame of intensity 0. -/
def grayZero : GrayImage := ⟨1, 1, fun _ _ => 0⟩

/-- A 1-by-1 grayscale frame of intensity 1. -/
def grayOne : GrayImage := ⟨1, 1, fun _ _ => 1⟩

/-- A 1-by-1 black color frame. -/
def rgbBlack : RGBImage := ⟨1, 1, fun _ _ => (0, 0, 0)⟩

/-- A 1-by-1 white color frame. -/
def rgbWhite : RGBImage := ⟨1, 1, fun _ _ => (255, 255, 255)⟩

/-- A backend state whose previous and current slots hold distinct frames. -/
def c2State : Backend where
  crop_box := (0, 0, 1, 1)
  pixel_threshold := 10
  motion_threshold := 0
  old_gray_image := some grayZero
  new_gray_image := some grayOne
  new_image := some rgbBlack

/-- C2 counterexample: from the state whose previous slot holds `grayZero` and
whose current slot holds `grayOne`, a failed capture does NOT leave the cycle
state identical to its pre-call value: `__update_images` overwrites the
previous slot with the current slot before `capture()` is invoked, so the
mutation is already committed when the failure occurs. -/
theorem c2_counterexample : (c2State.update CaptureResult.err).1 ≠ c2State := by
  intro h
  have h2 : some grayOne = some grayZero := congrArg Backend.old_gray_image h
  have h3 : grayOne = grayZero := Option.some.inj h2
  have h4 : (1 : Nat) = 0 := congrArg (fun g => GrayImage.pix g 0 0) h3
  exact one_ne_zero h4

/-- C2 amended: when capture fails during `update`, the current grayscale slot,
the display image slot and the configuration are unchanged and no event is
emitted, but the previous slot has already been overwritten with the pre-call
value of the current slot (so the state is not left identical whenever the
two slots differed). -/
theorem c2_capture_failure_overwrites_previous (s : Backend) :
    (s.update CaptureResult.err).1.old_gray_image = s.new_gray_image ∧
    (s.update CaptureResult.err).1.new_gray_image = s.new_gray_image ∧
    (s.update CaptureResult.err).1.new_image = s.new_image ∧
    (s.update CaptureResult.err).1.crop_box = s.crop_box ∧
    (s.update CaptureResult.err).1.pixel_threshold = s.pixel_threshold ∧
    (s.update CaptureResult.err).1.motion_threshold = s.motion_threshold ∧
    (s.update CaptureResult.err).2 = [] :=
  ⟨rfl, rfl, rfl, rfl, rfl, rfl, rfl⟩

/-! Helper lemmas for runs of successful updates. -/

theorem Backend.runOk_nil (s : Backend) : s.runOk [] = s := rfl

theorem Backend.runOk_cons (s : Backend) (raw : RGBImage) (raws : List RGBImage) :
    s.runOk (raw :: raws) = ((s.update (CaptureResult.ok raw)).1).runOk raws := rfl

theorem Backend.runOk_append (s : Backend) (l1 l2 : List RGBImage) :
    s.runOk (l1 ++ l2) = (s.runOk l1).runOk l2 := by
  simp [Backend.runOk, List.foldl_append]

theorem Backend.runOk_crop_box (s : Backend) (raws : List RGBImage) :
    (s.runOk raws).crop_box = s.crop_box := by
  induction raws generalizing s with
  | nil => rfl
  | cons raw rest ih =>
    rw [Backend.runOk_cons, ih, Backend.update_ok_state]

theorem Backend.runOk_snoc2 (s : Backend) (l : List RGBImage) (a b : RGBImage) :
    (s.runOk (l ++ [a, b])).old_gray_image = some (s.processed a) ∧
    (s.runOk (l ++ [a, b])).new_gray_image = some (s.processed b) := by
  rw [Backend.runOk_append]
  rw [Backend.runOk_cons, Backend.runOk_cons, Backend.runOk_nil]
  rw [Backend.update_ok_state, Backend.update_ok_state]
  simp [Backend.processed, Backend.runOk_crop_box]

/-- C3: starting from a fresh backend, after `N ≥ 2` successful `update` calls
capturing the listed raw frames in order, the previous slot holds exactly the
processed (cropped, grayscale) form of the `(N-1)`-th frame and the current
slot holds the processed form of the `N`-th frame. -/
theorem c3_sliding_window (box : Box) (pt : Nat) (mt : ℚ) (raws : List RGBImage)
    (N : Nat) (hN : raws.length = N) (h2 : 2 ≤ N) :
    ((Backend.init box pt mt).runOk raws).old_gray_image =
      some ((Backend.init box pt mt).processed (raws.get ⟨N - 2, by omega⟩)) ∧
    ((Backend.init box pt mt).runOk raws).new_gray_image =
      some ((Backend.init box pt mt).processed (raws.get ⟨N - 1, by omega⟩)) := by
  have hlt1 : N - 2 < raws.length := by omega
  have hlt2 : N - 1 < raws.length := by omega
  have hdN : List.drop N raws = [] := List.drop_eq_nil_of_le (by omega)
  have hdecomp : raws = raws.take (N - 2) ++ [raws.get ⟨N - 2, hlt1⟩, raws.get ⟨N - 1, hlt2⟩] := by
    conv_lhs => rw [← List.take_append_drop (N - 2) raws]
    congr 1
    rw [List.drop_eq_getElem_cons hlt1]
    have h1 : N - 2 + 1 = N - 1 := by omega
    rw [h1, List.drop_eq_getElem_cons hlt2]
    have h2' : N - 1 + 1 = N := by omega
    rw [h2', hdN]
    simp [List.get_eq_getElem]
  have key := Backend.runOk_snoc2 (Backend.init box pt mt) (raws.take (N - 2))
    (raws.get ⟨N - 2, hlt1⟩) (raws.get ⟨N - 1, hlt2⟩)
  rw [← hdecomp] at key
  exact ⟨key.1, key.2⟩

/-- C3 witness: a fresh backend run on the two concrete frames black then
white ends with previous = processed black and current = processed white. -/
theorem c3_witness :
    ((Backend.init (0, 0, 1, 1) 10 0).runOk [rgbBlack, rgbWhite]).old_gray_image =
      some ((Backend.init (0, 0, 1, 1) 10 0).processed
        ([rgbBlack, rgbWhite].get ⟨0, by decide⟩)) ∧
    ((Backend.init (0, 0, 1, 1) 10 0).runOk [rgbBlack, rgbWhite]).new_gray_image =
      some ((Backend.init (0, 0, 1, 1) 10 0).processed
        ([rgbBlack, rgbWhite].get ⟨1, by decide⟩)) :=
  c3_sliding_window (0, 0, 1, 1) 10 0 [rgbBlack, rgbWhite] 2 rfl (by decide)

/-! Bounds and boundary values of the differing-pixel count. -/

theorem diffCount_le_area (g1 g2 : GrayImage) (t : Nat) :
    diffCount g1 g2 t ≤ g1.width * g1.height := by
  unfold diffCount
  calc
    (Finset.sum (Finset.range g1.width) fun x =>
        Finset.sum (Finset.range g1.height) fun y =>
          if t < pixelDiff (g1.pix x y) (g2.pix x y) then 1 else 0) ≤
        Finset.sum (Finset.range g1.width) fun _ =>
          Finset.sum (Finset.range g1.height) fun _ => 1 := by
      refine Finset.sum_le_sum fun x _ => Finset.sum_le_sum fun y _ => ?_
      split <;> simp
    _ = g1.width * g1.height := by
      simp [Finset.sum_const, Finset.card_range, smul_eq_mul]

theorem diffCount_all_eq (g1 g2 : GrayImage) (t : Nat)
    (h : ∀ x y, x < g1.width → y < g1.height →
      pixelDiff (g1.pix x y) (g2.pix x y) = t) :
    diffCount g1 g2 t = 0 := by
  refine Finset.sum_eq_zero fun x hx => Finset.sum_eq_zero fun y hy => ?_
  rw [h x y (Finset.mem_range.mp hx) (Finset.mem_range.mp hy)]
  simp

theorem diffCount_all_succ (g1 g2 : GrayImage) (t : Nat)
    (h : ∀ x y, x < g1.width → y < g1.height →
      pixelDiff (g1.pix x y) (g2.pix x y) = t + 1) :
    diffCount g1 g2 t = g1.width * g1.height := by
  unfold diffCount
  have hterm : ∀ x ∈ Finset.range g1.width, ∀ y ∈ Finset.range g1.height,
      (if t < pixelDiff (g1.pix x y) (g2.pix x y) then 1 else 0) = 1 := by
    intro x hx y hy
    rw [h x y (Finset.mem_range.mp hx) (Finset.mem_range.mp hy)]
    simp
  calc
    (Finset.sum (Finset.range g1.width) fun x =>
        Finset.sum (Finset.range g1.height) fun y =>
          if t < pixelDiff (g1.pix x y) (g2.pix x y) then 1 else 0) =
        Finset.sum (Finset.range g1.width) fun _ =>
          Finset.sum (Finset.range g1.height) fun _ => 1 :=
      Finset.sum_congr rfl fun x hx =>
        Finset.sum_congr rfl fun y hy => hterm x hx y hy
    _ = g1.width * g1.height := by
      simp [Finset.sum_const, Finset.card_range, smul_eq_mul]

/-- C4: the per-pixel comparison is strict: over equal-dimension nonempty
frames, if every pixel pair differs by exactly `t` the mean-mode score (the
source `detect_motion_gray`) and the sum-mode score are both 0; if every pixel
pair differs by `t + 1` the mean-mode score is 1 and the sum-mode score is the
total pixel count. -/
theorem c4_strict_pixel_threshold (a b : GrayImage) (t : Nat)
    (hw : b.width = a.width) (hh : b.height = a.height)
    (hpos : 0 < a.width * a.height) :
    ((∀ x y, x < a.width → y < a.height → pixelDiff (a.pix x y) (b.pix x y) = t) →
       detect_motion_gray a b t = 0 ∧
       score_with_mode AggregationMode.sum a b t = 0) ∧
    ((∀ x y, x < a.width → y < a.height → pixelDiff (a.pix x y) (b.pix x y) = t + 1) →
       detect_motion_gray a b t = 1 ∧
       score_with_mode AggregationMode.sum a b t = ((a.width * a.height : Nat) : ℚ)) := by
  have hne : ((a.width * a.height : Nat) : ℚ) ≠ 0 := Nat.cast_ne_zero.mpr hpos.ne'
  constructor
  · intro h
    have hc := diffCount_all_eq a b t h
    constructor
    · unfold detect_motion_gray
      rw [hc]
      simp
    · simp [score_with_mode, hc]
  · intro h
    have hc := diffCount_all_succ a b t h
    constructor
    · unfold detect_motion_gray
      rw [hc]
      exact div_self hne
    · simp [score_with_mode, hc]

/-- C4 witness: on 1-by-1 frames of intensities 0 and 1 with pixel threshold 0,
every pixel differs by exactly `t + 1 = 1`, so the mean-mode score is the
maximal 1 and the sum-mode score is the full pixel count. -/
theorem c4_witness :
    detect_motion_gray grayZero grayOne 0 = 1 ∧
    score_with_mode AggregationMode.sum grayZero grayOne 0 = ((1 * 1 : Nat) : ℚ) :=
  (c4_strict_pixel_threshold grayZero grayOne 0 rfl rfl (by decide)).2
    (fun _ _ _ _ => rfl)

/-- C5: on any `update` whose capture succeeds and that starts from a state
whose current slot is populated (so a previous frame exists at scoring time),
an alert event is emitted iff the score strictly exceeds `motion_threshold`;
a score exactly equal to the threshold emits no alert; and a display-update
event carrying the cropped color frame is emitted regardless. -/
theorem c5_alert_iff_strictly_above (s : Backend) (raw : RGBImage) (g : GrayImage)
    (h : s.new_gray_image = some g) :
    (Event.alert ∈ (s.update (CaptureResult.ok raw)).2 ↔
      s.motion_threshold <
        detect_motion_gray g (convertL (crop raw s.crop_box)) s.pixel_threshold) ∧
    (detect_motion_gray g (convertL (crop raw s.crop_box)) s.pixel_threshold =
        s.motion_threshold →
      Event.alert ∉ (s.update (CaptureResult.ok raw)).2) ∧
    Event.display (crop raw s.crop_box) ∈ (s.update (CaptureResult.ok raw)).2 := by
  rw [Backend.update_ok_events_some s raw g h]
  by_cases hc : s.motion_threshold <
      detect_motion_gray g (convertL (crop raw s.crop_box)) s.pixel_threshold
  · refine ⟨by simp [hc], ?_, by simp [hc]⟩
    intro heq
    rw [heq] at hc
    exact absurd hc (lt_irrefl _)
  · exact ⟨by simp [hc], fun _ => by simp [hc], by simp [hc]⟩

/-- C5 witness: from the concrete state whose current slot holds `grayOne`, an
update capturing the white frame emits the display event with the cropped
color frame. -/
theorem c5_witness :
    Event.display (crop rgbWhite c2State.crop_box) ∈
      (c2State.update (CaptureResult.ok rgbWhite)).2 :=
  (c5_alert_iff_strictly_above c2State rgbWhite grayOne rfl).2.2

/-- C7: the scorer with a configurable aggregation mode (sum mode modelled
from the spec; mean mode is the source `detect_motion_gray`) returns, per the
configured mode, either the ratio of differing pixels — a value in `[0, 1]` —
or the raw differing-pixel count, bounded by the total pixel count. -/
theorem c7_two_aggregation_modes (g1 g2 : GrayImage) (t : Nat)
    (hw : g2.width = g1.width) (hh : g2.height = g1.height)
    (hpos : 0 < g1.width * g1.height) :
    score_with_mode AggregationMode.mean g1 g2 t = detect_motion_gray g1 g2 t ∧
    score_with_mode AggregationMode.mean g1 g2 t =
      (diffCount g1 g2 t : ℚ) / ((g1.width * g1.height : Nat) : ℚ) ∧
    0 ≤ score_with_mode AggregationMode.mean g1 g2 t ∧
    score_with_mode AggregationMode.mean g1 g2 t ≤ 1 ∧
    score_with_mode AggregationMode.sum g1 g2 t = (diffCount g1 g2 t : ℚ) ∧
    (diffCount g1 g2 t : ℚ) ≤ ((g1.width * g1.height : Nat) : ℚ) := by
  have hposQ : (0 : ℚ) < ((g1.width * g1.height : Nat) : ℚ) := by exact_mod_cast hpos
  have hle : (diffCount g1 g2 t : ℚ) ≤ ((g1.width * g1.height : Nat) : ℚ) :=
    Nat.cast_le.mpr (diffCount_le_area g1 g2 t)
  refine ⟨rfl, rfl, ?_, ?_, rfl, hle⟩
  · exact div_nonneg (Nat.cast_nonneg _) (Nat.cast_nonneg _)
  · exact (div_le_one hposQ).mpr hle

/-- C7 witness: on concrete 1-by-1 frames, mean mode returns the ratio and sum
mode returns the raw count. -/
theorem c7_witness :
    score_with_mode AggregationMode.mean grayZero grayOne 0 =
      (diffCount grayZero grayOne 0 : ℚ) /
        ((grayZero.width * grayZero.height : Nat) : ℚ) ∧
    score_with_mode AggregationMode.sum grayZero grayOne 0 =
      (diffCount grayZero grayOne 0 : ℚ) :=
  ⟨(c7_two_aggregation_modes grayZero grayOne 0 rfl rfl (by decide)).2.1,
   (c7_two_aggregation_modes grayZero grayOne 0 rfl rfl (by decide)).2.2.2.2.1⟩

/-- Full containment of a crop box inside a frame, as required by the spec's
`Region` invariant (left and upper are nonnegative by construction). -/
def boxContained (box : Box) (img : RGBImage) : Prop :=
  box.1 < box.2.2.1 ∧ box.2.1 < box.2.2.2 ∧
    box.2.2.1 ≤ img.width ∧ box.2.2.2 ≤ img.height

instance (box : Box) (img : RGBImage) : Decidable (boxContained box img) := by
  unfold boxContained
  infer_instance

/-- A 2-by-2 frame of constant pixel value (5, 5, 5). -/
def c6Raw : RGBImage := ⟨2, 2, fun _ _ => (5, 5, 5)⟩

/-- A box extending past the right and lower edges of `c6Raw`. -/
def c6Box : Box := (0, 0, 3, 3)

/-- C6 counterexample: the box `(0, 0, 3, 3)` is not contained in the 2-by-2
frame, yet the extraction does not fail: following `PIL.Image.crop`, the code
silently produces a 3-by-3 frame in which the in-bounds pixels are copied
from the source and the out-of-bounds region is filled with black. -/
theorem c6_counterexample :
    ¬ boxContained c6Box c6Raw ∧
    (crop c6Raw c6Box).width = 3 ∧
    (crop c6Raw c6Box).height = 3 ∧
    (crop c6Raw c6Box).pix 0 0 = (5, 5, 5) ∧
    (crop c6Raw c6Box).pix 2 2 = (0, 0, 0) := by
  refine ⟨?_, rfl, rfl, ?_, ?_⟩ <;> decide

/-- C6 amended: region extraction never signals an error: the result always
has the box's dimensions; wherever the box overlaps the frame the result is
the crop converted to single-channel grayscale, and pixels of the box that
fall outside the frame's bounds are black (grayscale intensity 0). -/
theorem c6_crop_total (raw : RGBImage) (l u r b x y : Nat)
    (hx : x < r - l) (hy : y < b - u) :
    (convertL (crop raw (l, u, r, b))).width = r - l ∧
    (convertL (crop raw (l, u, r, b))).height = b - u ∧
    (l + x < raw.width → u + y < raw.height →
      (convertL (crop raw (l, u, r, b))).pix x y = luma (raw.pix (l + x) (u + y))) ∧
    (¬ (l + x < raw.width ∧ u + y < raw.height) →
      (convertL (crop raw (l, u, r, b))).pix x y = 0) := by
  refine ⟨rfl, rfl, ?_, ?_⟩
  · intro h1 h2
    simp [convertL, crop, h1, h2]
  · intro hout
    simp only [convertL, crop]
    rw [if_neg hout]
    decide

/-- C6 amended witness: cropping the 2-by-2 frame with the oversized box
`(0, 0, 3, 3)` yields a grayscale pixel 0 at the out-of-bounds position
`(2, 2)`. -/
theorem c6_witness :
    (2 < 3 - 0) ∧ (convertL (crop c6Raw (0, 0, 3, 3))).pix 2 2 = 0 :=
  ⟨by decide,
   (c6_crop_total c6Raw 0 0 3 3 2 2 (by decide) (by decide)).2.2.2 (by decide)⟩

/-! Helper lemmas for the looping fixture camera. -/

theorem MockCamera.runCaptures_images (c : MockCamera) (n : Nat) :
    (c.runCaptures n).images = c.images := by
  induction n with
  | zero => rfl
  | succ n ih => simp [MockCamera.runCaptures, MockCamera.capture, ih]

theorem MockCamera.runCaptures_index (c : MockCamera) (n : Nat)
    (h : c.index < c.images.length) :
    (c.runCaptures n).index = (c.index + n) % c.images.length := by
  induction n with
  | zero => simp [MockCamera.runCaptures, Nat.mod_eq_of_lt h]
  | succ n ih =>
    have key : ∀ a k : Nat, (a % k + 1) % k = (a + 1) % k := fun a k => by
      rw [Nat.add_mod a 1 k, Nat.add_mod (a % k) 1 k, Nat.mod_mod_of_dvd a (dvd_refl k)]
    simp only [MockCamera.runCaptures, MockCamera.capture,
      MockCamera.runCaptures_images, ih]
    rw [key, ← Nat.add_assoc]

/-- C9: for every fixture camera state whose cursor is in range, the
`(n+1)`-th `capture()` call returns the frame at position
`(cursor + n) mod k` — the frames come back in order, wrapping to the start
of the collection after the last one; in particular, after exactly `k` calls
the cursor's original frame comes back around. -/
theorem c9_mock_camera_cycles (c : MockCamera) (n : Nat)
    (h : c.index < c.images.length) :
    c.nthCapture n = c.images.get? ((c.index + n) % c.images.length) ∧
    c.nthCapture c.images.length = c.images.get? c.index := by
  have hgen : ∀ m : Nat, c.nthCapture m = c.images.get? ((c.index + m) % c.images.length) := by
    intro m
    unfold MockCamera.nthCapture MockCamera.capture
    simp [MockCamera.runCaptures_images, MockCamera.runCaptures_index c m h]
  refine ⟨hgen n, ?_⟩
  rw [hgen c.images.length, Nat.add_mod_right, Nat.mod_eq_of_lt h]

/-- Three distinct 1-by-1 frames and a fixture camera holding them in order
with the cursor at 0. -/
def c9Camera : MockCamera :=
  ⟨[⟨1, 1, fun _ _ => (0, 0, 0)⟩,
    ⟨1, 1, fun _ _ => (1, 1, 1)⟩,
    ⟨1, 1, fun _ _ => (2, 2, 2)⟩], 0⟩

/-- C9 witness: with 3 frames and the cursor at 0, the 4th `capture()` call
returns frame 0. -/
theorem c9_witness :
    c9Camera.nthCapture 3 = c9Camera.images.get? ((c9Camera.index + 3) % c9Camera.images.length) ∧
    c9Camera.nthCapture 3 = c9Camera.images.get? 0 :=
  ⟨(c9_mock_camera_cycles c9Camera 3 (by decide)).1,
   (c9_mock_camera_cycles c9Camera 3 (by decide)).1⟩

end ImageMotion
